import Mathlib

/-!
Verification of the folder/file-name pattern-matching and normalization engine
of the `renaming_postman` repository (files `dynamic_models.py`,
`main_processor.py`, `postman_generator.py`).

Strings are modelled as Lean `String` / `List Char`.  Python's string
operations used by the code (`split`, `replace`, `endswith`, substring
membership `in`, `glob` filtering with `*`, `int()` on digit strings,
`f"{n:02d}"` zero padding, `pathlib.Path.stem`) are re-implemented below with
their exact semantics on the inputs the code feeds them.  File-system effects
(copying, deleting, warnings printed to stdout) are abstracted: directory
listings are passed in as lists of names, the presence of a `regression`
subdirectory as a boolean oracle, and JSON serialization of request bodies as
an explicit function parameter.
-/

namespace RenamingPostman

/-! ## Basic string utilities (Python semantics) -/

/-- Value of a digit list, as Python's `int` computes it on an all-digit
string (`int("007") = 7`). -/
def digitsToNat (ds : List Char) : Nat :=
  ds.foldl (fun a c => 10 * a + (c.toNat - '0'.toNat)) 0

/-- Python `int(raw)` restricted to canonical digit strings: succeeds exactly
on non-empty all-digit inputs, with `none` modelling the `ValueError`.
(Python's `int` additionally tolerates surrounding whitespace, a sign and
digit-group underscores; the discovery code only ever feeds it the digit
group captured by `(\d{1,3})`, where the two agree.) -/
def parse_nat (s : String) : Option Nat :=
  if !s.data.isEmpty && s.data.all Char.isDigit then some (digitsToNat s.data)
  else none

/-- Python `str.split(sep)` for a one-character separator. -/
def splitOnChar (sep : Char) : List Char → List (List Char)
  | [] => [[]]
  | c :: rest =>
    if c = sep then [] :: splitOnChar sep rest
    else
      match splitOnChar sep rest with
      | t :: ts => (c :: t) :: ts
      | [] => [[c]]

/-- Model of `filename.split('#')`, the segmenting used by the file-name resolver. -/
def splitHash (l : List Char) : List (List Char) :=
  splitOnChar '#' l

/-- Python substring membership `pat in s`. -/
def containsSub (pat : List Char) : List Char → Bool
  | [] => pat.isPrefixOf []
  | c :: rest => pat.isPrefixOf (c :: rest) || containsSub pat rest

/-- Scanner for `str.replace`: walk the string left to right; a positive
skip count means the current character belongs to an occurrence already
replaced and is dropped.  At skip 0, a (non-empty) occurrence of `pat`
emits `rep` and schedules its remaining `pat.length - 1` characters for
skipping; otherwise the character is kept.  Structured this way so that the
recursion is structural on the string. -/
def replaceSkip (pat rep : List Char) : Nat → List Char → List Char
  | _, [] => []
  | k + 1, _ :: rest => replaceSkip pat rep k rest
  | 0, c :: rest =>
    if pat.isPrefixOf (c :: rest) && !pat.isEmpty then
      rep ++ replaceSkip pat rep (pat.length - 1) rest
    else
      c :: replaceSkip pat rep 0 rest

/-- Python `s.replace(pat, rep)`: leftmost non-overlapping replacement of
every occurrence (our call sites always pass a non-empty `pat`). -/
def replaceAll (pat rep : List Char) (s : List Char) : List Char :=
  if pat.isEmpty then s else replaceSkip pat rep 0 s

/-- Fuelled core of glob matching: every step consumes at least one unit of
fuel while shortening the pattern or the string, so any fuel exceeding
`p.length + s.length` makes the 0-fuel arm unreachable. -/
def globMatchFuel : Nat → List Char → List Char → Bool
  | 0, _, _ => false
  | n + 1, p, s =>
    match p, s with
    | [], [] => true
    | [], _ :: _ => false
    | '*' :: p2, s =>
      globMatchFuel n p2 s ||
        (match s with
         | [] => false
         | _ :: s2 => globMatchFuel n ('*' :: p2) s2)
    | c :: p2, d :: s2 => c == d && globMatchFuel n p2 s2
    | _ :: _, [] => false

/-- Shell-style glob matching as `glob.glob` applies it to our patterns:
`*` matches any (possibly empty) run of characters, every other character
matches itself.  (The discovery patterns contain no `?` or `[`.) -/
def globMatch (p s : List Char) : Bool :=
  globMatchFuel (p.length + s.length + 1) p s

/-- Model of `f"{n:0wd}"`: decimal representation of `n`, left-padded with zeros to
width `w`. -/
def zeroPad (w n : Nat) : String :=
  String.mk (List.replicate (w - (toString n).length) '0' ++ (toString n).data)

/-- If `lit` is a literal beginning `s`, the remainder of `s` after it. -/
def stripLit (lit s : List Char) : Option (List Char) :=
  if lit.isPrefixOf s then some (List.drop lit.length s) else none

/-! ## `dynamic_models.py` -/

/-- Core of `normalize_ts_number`, given the already-parsed integer value `n` of the
raw string (the branch structure of `dynamic_models.py` lines 30-44). -/
def normalize_ts_value (n : Nat) (raw : String) : String :=
  if 1 ≤ n ∧ n ≤ 9 then zeroPad 2 n
  else if 10 ≤ n ∧ n ≤ 99 then zeroPad 2 n
  else if 100 ≤ n ∧ n ≤ 999 then zeroPad 3 n
  else raw

/-- Model of `normalize_ts_number(ts_number_raw)` from `dynamic_models.py`:
parse the raw string as a non-negative integer (`none` models the
`ValueError` escape of `int()`), then pad according to the value range. -/
def normalize_ts_number (raw : String) : Option String :=
  (parse_nat raw).map (fun n => normalize_ts_value n raw)

/-- The middle part distinguishing the registered folder-name grammars of
`discover_ts_folders` (`dynamic_models.py` lines 154-206).  A `lit` middle
stands for the regex `TS_(\d{1,3})_<m>_WGS_CSBD_([A-Za-z0-9]+)_([A-Za-z0-9]+)_sur$`;
`subEdit` for the `Revenue code Services ... Sub Edit \d+` variant, and
`gbdfCovid` for `TS_(\d{1,3})_Covid_gbdf_mcr_([A-Za-z0-9]+)_([A-Za-z0-9]+)_sur$`. -/
inductive Middle where
  | lit (m : String)
  | subEdit
  | gbdfCovid
deriving DecidableEq

/-- Extraction of a matched folder name: the raw TS digit group, the edit id
and the EOB/response code. -/
structure FolderParams where
  ts_raw : String
  edit_id : String
  code : String
deriving DecidableEq

/-- The `([A-Za-z0-9]+)_([A-Za-z0-9]+)_sur$` tail of every grammar: the
remainder must consist of exactly two non-empty alphanumeric tokens and the
literal `sur`, separated by underscores. -/
def tailParams (s : List Char) : Option (String × String) :=
  match splitOnChar '_' s with
  | [a, b, t] =>
    if !a.isEmpty && a.all Char.isAlphanum && !b.isEmpty && b.all Char.isAlphanum
        && t == "sur".data then
      some (String.mk a, String.mk b)
    else none
  | _ => none

/-- Consume the grammar-specific middle (everything between the TS digit
group's underscore and the grammar tail). -/
def matchMiddle : Middle → List Char → Option (List Char)
  | .lit m, s => stripLit (m.data ++ "_WGS_CSBD_".data) s
  | .subEdit, s =>
    match stripLit "Revenue code Services not payable on Facility claim Sub Edit ".data s with
    | none => none
    | some s1 =>
      let ds := s1.takeWhile Char.isDigit
      if ds.isEmpty then none
      else stripLit "_WGS_CSBD_".data (List.drop ds.length s1)
  | .gbdfCovid, s => stripLit "Covid_gbdf_mcr_".data s

/-- Model of the `re.match` of one registered grammar against a folder name.  The regexes
are anchored on both sides; `\d{1,3}` resolves deterministically to the
maximal digit run (it is always followed by a literal underscore). -/
def matchGrammar (g : Middle) (name : String) : Option FolderParams :=
  match stripLit "TS_".data name.data with
  | none => none
  | some s1 =>
    let ds := s1.takeWhile Char.isDigit
    if ds.length < 1 || 3 < ds.length then none
    else
      match stripLit "_".data (List.drop ds.length s1) with
      | none => none
      | some s2 =>
        match matchMiddle g s2 with
        | none => none
        | some s3 =>
          match tailParams s3 with
          | some (a, b) => some ⟨String.mk ds, a, b⟩
          | none => none

/-- The thirteen WGS_CSBD grammars, in the order the `if not match` chain of
`discover_ts_folders` tries them (`dynamic_models.py` lines 154-202). -/
def wgs_grammars : List Middle :=
  [ .lit "REVENUE",
    .subEdit,
    .lit "Lab panel Model",
    .lit "Recovery Room Reimbursement",
    .lit "Covid",
    .lit "Laterality Policy-Disgnosis to Diagnosis",
    .lit "Device Dependent Procedures(R1)-1B",
    .lit "revenue model",
    .lit "Revenue Code to HCPCS Xwalk-1B",
    .lit "Incidentcal Services Facility",
    .lit "Revenue model CR v3",
    .lit "HCPCS to Revenue Code Xwalk",
    .lit "Multiple E&M Same day" ]

/-- The full ordered grammar chain: the GBDF MCR grammar is appended only
when the base directory is a GBDF directory (lines 205-206). -/
def grammarChain (isGbdf : Bool) : List Middle :=
  wgs_grammars ++ (if isGbdf then [.gbdfCovid] else [])

/-- Resolution of a folder name: try the registered grammars strictly in
order and return the first successful extraction. -/
def resolve_folder_name (isGbdf : Bool) (name : String) : Option FolderParams :=
  (grammarChain isGbdf).findSome? (fun g => matchGrammar g name)

/-- Destination folder-name derivation (`dynamic_models.py` lines 224-231):
an ordered chain of substring tests, each rewriting every occurrence
(`str.replace`) of its pattern. -/
def dest_folder_name (name : String) : String :=
  if containsSub "_payloads_sur".data name.data then
    String.mk (replaceAll "_payloads_sur".data "_payloads_dis".data name.data)
  else if containsSub "_ayloads_sur".data name.data then
    String.mk (replaceAll "_ayloads_sur".data "_payloads_dis".data name.data)
  else if containsSub "_sur".data name.data then
    String.mk (replaceAll "_sur".data "_dis".data name.data)
  else name

/-- The fifteen WGS_CSBD glob patterns of `discover_ts_folders`
(`dynamic_models.py` lines 118-132), in concatenation order. -/
def wgs_glob_patterns : List String :=
  [ "TS_*_REVENUE_WGS_CSBD_*_payloads_sur",
    "TS_*_REVENUE_WGS_CSBD_*_ayloads_sur",
    "TS_*_REVENUE_WGS_CSBD_*_sur",
    "TS_*_Revenue code Services not payable on Facility claim Sub Edit *_WGS_CSBD_*_sur",
    "TS_*_Lab panel Model_WGS_CSBD_*_sur",
    "TS_*_Recovery Room Reimbursement_WGS_CSBD_*_sur",
    "TS_*_Covid_WGS_CSBD_*_sur",
    "TS_*_Laterality Policy-Disgnosis to Diagnosis_WGS_CSBD_*_sur",
    "TS_*_Device Dependent Procedures(R1)-1B_WGS_CSBD_*_sur",
    "TS_*_revenue model_WGS_CSBD_*_sur",
    "TS_*_Revenue Code to HCPCS Xwalk-1B_WGS_CSBD_*_sur",
    "TS_*_Incidentcal Services Facility_WGS_CSBD_*_sur",
    "TS_*_Revenue model CR v3_WGS_CSBD_*_sur",
    "TS_*_HCPCS to Revenue Code Xwalk_WGS_CSBD_*_sur",
    "TS_*_Multiple E&M Same day_WGS_CSBD_*_sur" ]

/-- The single GBDF glob pattern (`dynamic_models.py` line 111). -/
def gbdf_glob_pattern : String := "TS_*_Covid_gbdf_mcr_*_sur"

/-- Model of `is_gbdf = "GBDF" in base_dir` (`dynamic_models.py` line 107). -/
def is_gbdf_dir (baseDir : String) : Bool :=
  containsSub "GBDF".data baseDir.data

/-- The candidate list `ts_folders`: the concatenation of the glob results of
each pattern over the directory listing, in pattern order (lines 111-137).
A name matched by several patterns occurs once per matching pattern. -/
def ts_folder_candidates (isGbdf : Bool) (listing : List String) : List String :=
  if isGbdf then
    listing.filter (fun f => globMatch gbdf_glob_pattern.data f.data)
  else
    (wgs_glob_patterns.map
      (fun p => listing.filter (fun f => globMatch p.data f.data))).flatten

/-- One discovered model record (the fields of the `model_config` dict that
the specification's claims concern; `dynamic_models.py` lines 307-317). -/
structure ModelConfig where
  ts_number : String
  ts_number_raw : String
  edit_id : String
  code : String
  folder_name : String
  dest_folder : String
deriving DecidableEq

/-- Per-candidate processing of `discover_ts_folders` (lines 142-322): match
the grammar chain, normalize the TS number, require the `regression`
subdirectory (its absence drops the candidate with a warning), derive the
destination folder name and build the record. -/
def processFolder (isGbdf : Bool) (hasRegression : String → Bool)
    (folder : String) : Option ModelConfig :=
  match resolve_folder_name isGbdf folder with
  | none => none
  | some p =>
    if hasRegression folder then
      some { ts_number := normalize_ts_value (digitsToNat p.ts_raw.data) p.ts_raw,
             ts_number_raw := p.ts_raw,
             edit_id := p.edit_id,
             code := p.code,
             folder_name := folder,
             dest_folder := dest_folder_name folder }
    else none

/-- Model of `discover_ts_folders(base_dir)` over an explicit directory listing and a
`regression`-subdirectory oracle. -/
def discover_ts_folders (baseDir : String) (hasRegression : String → Bool)
    (listing : List String) : List ModelConfig :=
  (ts_folder_candidates (is_gbdf_dir baseDir) listing).filterMap
    (processFolder (is_gbdf_dir baseDir) hasRegression)

/-! ## `main_processor.py` : `rename_files` -/

/-- Model of `parts[i].replace('.json', '')`: remove every occurrence of `.json`. -/
def strip_json (s : List Char) : List Char :=
  replaceAll ".json".data [] s

/-- The nested `suffix_mapping` dictionary of `rename_files`
(`main_processor.py` lines 35-46): categories in insertion order, each an
association list. -/
def suffix_mapping : List (List (String × String)) :=
  [ [("deny", "LR")],
    [("bypass", "NR")],
    [("market", "EX"), ("date", "EX")] ]

/-- The suffix-mapping loop (lines 82-86 / 130-134): walk the categories in
order, and on the first category containing the suffix return its value;
otherwise the suffix passes through unchanged. -/
def get_mapped_suffix (s : String) : String :=
  match suffix_mapping.findSome?
      (fun cat => (cat.find? (fun kv => kv.1 == s)).map (fun kv => kv.2)) with
  | some v => v
  | none => s

/-- Composition `new_filename = f"{tc_part}#{tc_id_part}#{edit_id}#{code}#{mapped_suffix}.json"`
(lines 89 and 137). -/
def new_file_name (tc tcid e c m : List Char) : String :=
  String.mk (tc ++ '#' :: tcid ++ '#' :: e ++ '#' :: c ++ '#' :: (m ++ ".json".data))

/-- Classification outcome of one source filename inside `rename_files`:
renamed-and-moved, skipped with the parameter-mismatch warning (line 205), or
skipped with the unrecognized-format warning (line 208). -/
inductive FileOutcome where
  | renamed (newName : String)
  | mismatch
  | unrecognized
deriving DecidableEq

/-- The per-file body of the `rename_files` loop (`main_processor.py`
lines 71-209), minus the copy/delete I/O: split on `#` and dispatch on the
segment count.  3 segments: rebuild with the caller's `edit_id`/`code`.
4 segments: the embedded edit id (`parts[2]`) is parsed but the new name is
built from the caller's `edit_id`/`code`.  5 segments: keep the original name
when both embedded codes equal the target's, else a mismatch warning.  Any
other count: unrecognized. -/
def processFile (edit_id code : String) (filename : String) : FileOutcome :=
  match splitHash filename.data with
  | [tc, tcid, sfx] =>
    .renamed (new_file_name tc tcid edit_id.data code.data
      (get_mapped_suffix (String.mk (strip_json sfx))).data)
  | [tc, tcid, _fileEdit, sfx] =>
    .renamed (new_file_name tc tcid edit_id.data code.data
      (get_mapped_suffix (String.mk (strip_json sfx))).data)
  | [_tc, _tcid, fe, fc, _sfx] =>
    if String.mk fe = edit_id ∧ String.mk fc = code then .renamed filename
    else .mismatch
  | _ => .unrecognized

/-- Model of `rename_files(edit_id, code, ...)` over an explicit source-directory
listing: keep the `*.json` files (line 64), process each in order, and
accumulate the new names of the renamed files (the `renamed_files` result
list). -/
def rename_files (edit_id code : String) (listing : List String) : List String :=
  (listing.filter (fun f => ".json".data.isSuffixOf f.data)).filterMap
    (fun f =>
      match processFile edit_id code f with
      | .renamed n => some n
      | _ => none)

/-! ## `postman_generator.py` : extended-shape collection -/

/-- Parsed 5-segment file info (`_parse_filename`). -/
structure ParsedInfo where
  tc_part : String
  tc_id : String
  edit_id : String
  eob_code : String
  sfx : String
deriving DecidableEq

/-- Model of `_parse_filename` (`postman_generator.py` lines 31-57): require the
`.json` extension, strip every `.json` occurrence, require a `#` and exactly
five `#`-separated segments. -/
def parse_filename (filename : String) : Option ParsedInfo :=
  if ".json".data.isSuffixOf filename.data then
    let nwe := strip_json filename.data
    if nwe.contains '#' then
      match splitHash nwe with
      | [a, b, c, d, e] =>
        some ⟨String.mk a, String.mk b, String.mk c, String.mk d, String.mk e⟩
      | _ => none
    else none
  else none

/-- Table `method_map` (lines 179-183). -/
def method_map : List (String × String) :=
  [("LR", "POST"), ("NR", "POST"), ("EX", "POST")]

/-- Lookup `method_map.get(suffix, 'POST')`. -/
def method_for (sfx : String) : String :=
  match method_map.find? (fun kv => kv.1 == sfx) with
  | some kv => kv.2
  | none => "POST"

/-- Index of the last `.` in a name, if any. -/
def lastDotIndex : List Char → Option Nat
  | [] => none
  | c :: rest =>
    match lastDotIndex rest with
    | some i => some (i + 1)
    | none => if c = '.' then some 0 else none

/-- Model of `pathlib.Path(...).stem` for a bare filename: drop the final extension,
where the extension starts at the last `.` provided that dot is neither the
first nor the last character. -/
def path_stem (filename : String) : String :=
  match lastDotIndex filename.data with
  | some i =>
    if 0 < i ∧ i < filename.data.length - 1 then String.mk (filename.data.take i)
    else filename
  | none => filename

/-- One header of the fixed header block (lines 193-209). -/
structure PostmanHeader where
  key : String
  value : String
  hType : String
deriving DecidableEq

/-- The fixed header set attached to every generated request. -/
def fixed_headers : List PostmanHeader :=
  [ ⟨"Content-Type", "application/json", "text"⟩,
    ⟨"meta-transid", "20220117181853TMBL20359Cl893580999", "text"⟩,
    ⟨"meta-src-envrmt", "IMSH", "text"⟩ ]

/-- The raw request body (lines 215-223). -/
structure PostmanBody where
  mode : String
  raw : String
deriving DecidableEq

/-- One request entry of the extended-shape collection (lines 189-225). -/
structure PostmanItem where
  name : String
  method : String
  header : List PostmanHeader
  url : String
  body : PostmanBody
deriving DecidableEq

/-- A collection-level variable (lines 158-164). -/
structure PostmanVariable where
  key : String
  value : String
  vType : String
deriving DecidableEq

/-- The extended-shape collection document (lines 151-165). -/
structure PostmanCollection where
  info_name : String
  info_description : String
  schema : String
  item : List PostmanItem
  varList : List PostmanVariable
deriving DecidableEq

/-- One request entry, built as in lines 186-225.  `dumps` abstracts
`json.dumps(json_content, indent=2)` (JSON serialization is outside the
modelled core); `content` is the parsed payload of the source file. -/
def make_postman_item {α : Type} (dumps : α → String) (filename : String)
    (content : α) (info : ParsedInfo) : PostmanItem :=
  { name := path_stem filename,
    method := method_for info.sfx,
    header := fixed_headers,
    url := "\x7b\x7bbaseUrl\x7d\x7d/api/validate/\x7b\x7btc_id\x7d\x7d",
    body := { mode := "raw", raw := dumps content } }

/-- Model of `generate_postman_collection` (`postman_generator.py` lines 124-254,
extended shape), over an explicit file list (name, parsed-JSON content) in
walk order: keep `.json` files, return `none` when none exist, build one
request per parseable filename, return `none` when no request could be
built, else the collection with its single templated base-URL variable. -/
def json_file_list {α : Type} (files : List (String × α)) : List (String × α) :=
  files.filter (fun fc => ".json".data.isSuffixOf fc.1.data)

def collection_items {α : Type} (dumps : α → String)
    (files : List (String × α)) : List PostmanItem :=
  (json_file_list files).filterMap
    (fun fc => (parse_filename fc.1).map
      (fun info => make_postman_item dumps fc.1 fc.2 info))

def generate_postman_collection {α : Type} (dumps : α → String)
    (collection_name : String) (files : List (String × α)) :
    Option PostmanCollection :=
  if (json_file_list files).isEmpty then none
  else if (collection_items dumps files).isEmpty then none
  else
    some { info_name := collection_name ++ " API Collection",
           info_description := "API collection for " ++ collection_name ++ " test cases",
           schema := "https://schema.getpostman.com/json/collection/v2.1.0/collection.json",
           item := collection_items dumps files,
           varList := [⟨"baseUrl", "http://localhost:3000", "string"⟩] }

/-- Propositional form of substring occurrence (Python's `pat in s`). -/
def OccursIn (pat s : String) : Prop :=
  ∃ u v, s.data = u ++ pat.data ++ v

/-! ## Helper lemmas -/

theorem isPrefixOf_exists_append {l1 l2 : List Char} :
    l1.isPrefixOf l2 = true ↔ ∃ t, l1 ++ t = l2 := by
  rw [List.isPrefixOf_iff_prefix]
  exact Iff.rfl

theorem containsSub_iff (pat s : List Char) :
    containsSub pat s = true ↔ ∃ u v, s = u ++ pat ++ v := by
  induction s with
  | nil =>
    simp only [containsSub, isPrefixOf_exists_append]
    constructor
    · rintro ⟨t, ht⟩
      exact ⟨[], t, by simp [ht]⟩
    · rintro ⟨u, v, huv⟩
      have hu : u = [] := by
        cases u with
        | nil => rfl
        | cons a u => simp at huv
      subst hu
      exact ⟨v, by simpa using huv.symm⟩
  | cons c rest ih =>
    simp only [containsSub, Bool.or_eq_true, ih, isPrefixOf_exists_append]
    constructor
    · rintro (⟨t, ht⟩ | ⟨u, v, huv⟩)
      · exact ⟨[], t, by simp [ht]⟩
      · exact ⟨c :: u, v, by simp [huv]⟩
    · rintro ⟨u, v, huv⟩
      cases u with
      | nil =>
        exact Or.inl ⟨v, by simpa using huv.symm⟩
      | cons a u =>
        simp only [List.cons_append, List.cons.injEq] at huv
        exact Or.inr ⟨u, v, huv.2⟩

theorem splitOnChar_ne_nil (sep : Char) (l : List Char) : splitOnChar sep l ≠ [] := by
  induction l with
  | nil => simp [splitOnChar]
  | cons c rest ih =>
    by_cases hc : c = sep
    · simp [splitOnChar, hc]
    · simp only [splitOnChar, if_neg hc]
      rcases h : splitOnChar sep rest with _ | ⟨t, ts⟩ <;> simp

theorem mem_splitOnChar_not_mem (sep : Char) (l t : List Char)
    (ht : t ∈ splitOnChar sep l) : sep ∉ t := by
  induction l generalizing t with
  | nil =>
    simp only [splitOnChar, List.mem_singleton] at ht
    subst ht
    simp
  | cons c rest ih =>
    by_cases hc : c = sep
    · simp only [splitOnChar, if_pos hc, List.mem_cons] at ht
      rcases ht with rfl | h
      · simp
      · exact ih t h
    · simp only [splitOnChar, if_neg hc] at ht
      rcases hr : splitOnChar sep rest with _ | ⟨t0, ts⟩
      · exact absurd hr (splitOnChar_ne_nil sep rest)
      · rw [hr] at ht
        simp only [List.mem_cons] at ht
        rcases ht with rfl | h
        · intro hmem
          rcases List.mem_cons.mp hmem with rfl | h0
          · exact hc rfl
          · exact ih t0 (by rw [hr]; exact List.mem_cons_self t0 ts) h0
        · exact ih t (by rw [hr]; exact List.mem_cons_of_mem t0 h)

theorem splitOnChar_append_sep (sep : Char) (a r : List Char) (ha : sep ∉ a) :
    splitOnChar sep (a ++ sep :: r) = a :: splitOnChar sep r := by
  induction a with
  | nil => simp [splitOnChar]
  | cons c a ih =>
    have hc : ¬ c = sep := fun h => ha (h ▸ List.mem_cons_self c a)
    have ha2 : sep ∉ a := fun h => ha (List.mem_cons_of_mem c h)
    simp only [List.cons_append, splitOnChar, if_neg hc, List.append_eq, ih ha2]

theorem splitOnChar_eq_single (sep : Char) (l : List Char) (h : sep ∉ l) :
    splitOnChar sep l = [l] := by
  induction l with
  | nil => simp [splitOnChar]
  | cons c rest ih =>
    have hc : ¬ c = sep := fun he => h (he ▸ List.mem_cons_self c rest)
    have h2 : sep ∉ rest := fun hm => h (List.mem_cons_of_mem c hm)
    simp only [splitOnChar, if_neg hc, ih h2]

theorem mem_replaceSkip_nil (pat : List Char) :
    ∀ (s : List Char) (k : Nat) (c : Char),
      c ∈ replaceSkip pat [] k s → c ∈ s := by
  intro s
  induction s with
  | nil =>
    intro k c hc
    cases k <;> simp [replaceSkip] at hc
  | cons d rest ih =>
    intro k c hc
    cases k with
    | succ k2 =>
      exact List.mem_cons_of_mem d (ih k2 c hc)
    | zero =>
      rw [replaceSkip] at hc
      by_cases hp : pat.isPrefixOf (d :: rest) && !pat.isEmpty
      · rw [if_pos hp] at hc
        simp only [List.nil_append] at hc
        exact List.mem_cons_of_mem d (ih _ c hc)
      · rw [if_neg hp] at hc
        rcases List.mem_cons.mp hc with rfl | h
        · exact List.mem_cons_self c rest
        · exact List.mem_cons_of_mem d (ih 0 c h)

theorem mem_replaceAll_nil (pat s : List Char) (c : Char)
    (h : c ∈ replaceAll pat [] s) : c ∈ s := by
  unfold replaceAll at h
  by_cases hpe : pat.isEmpty
  · rw [if_pos hpe] at h
    exact h
  · rw [if_neg hpe] at h
    exact mem_replaceSkip_nil pat s 0 c h

theorem mem_strip_json (s : List Char) (c : Char) (h : c ∈ strip_json s) : c ∈ s :=
  mem_replaceAll_nil ".json".data s c h

theorem get_mapped_suffix_cases (s : String) :
    get_mapped_suffix s = s ∨ get_mapped_suffix s = "LR" ∨
      get_mapped_suffix s = "NR" ∨ get_mapped_suffix s = "EX" := by
  by_cases h1 : s = "deny"
  · subst h1; right; left; rfl
  by_cases h2 : s = "bypass"
  · subst h2; right; right; left; rfl
  by_cases h3 : s = "market"
  · subst h3; right; right; right; rfl
  by_cases h4 : s = "date"
  · subst h4; right; right; right; rfl
  left
  have e1 : ("deny" == s) = false := by simp [h1, Ne.symm h1]
  have e2 : ("bypass" == s) = false := by simp [Ne.symm h2]
  have e3 : ("market" == s) = false := by simp [Ne.symm h3]
  have e4 : ("date" == s) = false := by simp [Ne.symm h4]
  simp [get_mapped_suffix, suffix_mapping, List.findSome?_cons, List.find?, e1, e2, e3, e4]

theorem findSome?_of_earlier_none {α β : Type} (f : α → Option β) :
    ∀ (L : List α) (i : Nat) (h : i < L.length) (r : β),
      (∀ j (hj : j < i), f (L.get ⟨j, Nat.lt_trans hj h⟩) = none) →
      f (L.get ⟨i, h⟩) = some r → L.findSome? f = some r := by
  intro L
  induction L with
  | nil => intro i h; simp at h
  | cons a L ih =>
    intro i h r hearly hi
    cases i with
    | zero =>
      simp only [List.get] at hi
      simp [List.findSome?_cons, hi]
    | succ i =>
      have h0 : f a = none := hearly 0 (Nat.succ_pos i)
      simp only [List.findSome?_cons, h0]
      have h2 : i < L.length := by simpa using h
      exact ih i h2 r
        (fun j hj => hearly (j + 1) (by omega))
        (by simpa using hi)

theorem mem_splitHash_not_mem (l t : List Char) (ht : t ∈ splitHash l) :
    '#' ∉ t :=
  mem_splitOnChar_not_mem '#' l t ht

theorem splitHash_new_file_name (tc tcid e c m : List Char)
    (h1 : '#' ∉ tc) (h2 : '#' ∉ tcid) (h3 : '#' ∉ e) (h4 : '#' ∉ c)
    (h5 : '#' ∉ m) :
    splitHash (new_file_name tc tcid e c m).data
      = [tc, tcid, e, c, m ++ ".json".data] := by
  have hj : ('#' : Char) ∉ (m ++ ".json".data) := by
    intro hm
    rcases List.mem_append.mp hm with h | h
    · exact h5 h
    · exact absurd h (by decide)
  unfold splitHash
  rw [show (new_file_name tc tcid e c m).data
      = tc ++ '#' :: (tcid ++ '#' :: (e ++ '#' :: (c ++ '#' :: (m ++ ".json".data))))
      from by simp [new_file_name]]
  rw [splitOnChar_append_sep '#' tc _ h1, splitOnChar_append_sep '#' tcid _ h2,
      splitOnChar_append_sep '#' e _ h3, splitOnChar_append_sep '#' c _ h4,
      splitOnChar_eq_single '#' _ hj]

theorem json_suffix_new_file_name (tc tcid e c m : List Char) :
    ".json".data.isSuffixOf (new_file_name tc tcid e c m).data = true := by
  rw [List.isSuffixOf_iff_suffix]
  refine ⟨tc ++ '#' :: (tcid ++ '#' :: (e ++ '#' :: (c ++ '#' :: m))), ?_⟩
  rw [show (new_file_name tc tcid e c m).data
      = tc ++ '#' :: (tcid ++ '#' :: (e ++ '#' :: (c ++ '#' :: (m ++ ".json".data))))
      from by simp [new_file_name]]
  simp [List.append_assoc, List.cons_append]

theorem no_hash_mapped_suffix (sfx : List Char) (hs : '#' ∉ sfx) :
    '#' ∉ (get_mapped_suffix (String.mk (strip_json sfx))).data := by
  rcases get_mapped_suffix_cases (String.mk (strip_json sfx)) with h | h | h | h <;> rw [h]
  · intro hmem
    exact hs (mem_strip_json sfx '#' hmem)
  · decide
  · decide
  · decide

/-! ## Claims -/

/-- Claim C2: for every string parseable as a non-negative integer `n`,
`normalize_ts_number` yields the 2-digit zero-padded form for `1 ≤ n ≤ 9`,
the 2-digit form for `10 ≤ n ≤ 99`, the 3-digit zero-padded form for
`100 ≤ n ≤ 999`, and the raw string unchanged outside `[1, 999]`; for
in-range values the result depends only on `n`, not on how many leading
zeros the raw string carried. -/
theorem claim_c2_normalize_ranges (raw : String) (n : Nat)
    (hp : parse_nat raw = some n) :
    ((1 ≤ n ∧ n ≤ 9) → normalize_ts_number raw = some (zeroPad 2 n)) ∧
    ((10 ≤ n ∧ n ≤ 99) → normalize_ts_number raw = some (zeroPad 2 n)) ∧
    ((100 ≤ n ∧ n ≤ 999) → normalize_ts_number raw = some (zeroPad 3 n)) ∧
    ((n = 0 ∨ 1000 ≤ n) → normalize_ts_number raw = some raw) ∧
    (∀ raw2 : String, parse_nat raw2 = some n → 1 ≤ n → n ≤ 999 →
      normalize_ts_number raw = normalize_ts_number raw2) := by
  refine ⟨?_, ?_, ?_, ?_, ?_⟩
  · rintro ⟨ha, hb⟩
    simp [normalize_ts_number, hp, normalize_ts_value, ha, hb]
  · rintro ⟨ha, hb⟩
    have h9 : ¬ (1 ≤ n ∧ n ≤ 9) := by omega
    simp [normalize_ts_number, hp, normalize_ts_value, h9, ha, hb]
  · rintro ⟨ha, hb⟩
    have h9 : ¬ (1 ≤ n ∧ n ≤ 9) := by omega
    have h99 : ¬ (10 ≤ n ∧ n ≤ 99) := by omega
    simp [normalize_ts_number, hp, normalize_ts_value, h9, h99, ha, hb]
  · intro hout
    have h9 : ¬ (1 ≤ n ∧ n ≤ 9) := by omega
    have h99 : ¬ (10 ≤ n ∧ n ≤ 99) := by omega
    have h999 : ¬ (100 ≤ n ∧ n ≤ 999) := by omega
    simp [normalize_ts_number, hp, normalize_ts_value, h9, h99, h999]
  · intro raw2 hp2 h1 h999
    have e1 : normalize_ts_value n raw = normalize_ts_value n raw2 := by
      unfold normalize_ts_value
      by_cases c1 : 1 ≤ n ∧ n ≤ 9
      · simp [c1]
      · by_cases c2 : 10 ≤ n ∧ n ≤ 99
        · simp [c1, c2]
        · have c3 : 100 ≤ n ∧ n ≤ 999 := by omega
          simp [c1, c2, c3]
    simp [normalize_ts_number, hp, hp2, e1]

/-- Witness for C2: the raw string `"001"` carries a leading zero yet
normalizes to the minimum-width 2-digit form `"01"`. -/
theorem claim_c2_witness :
    parse_nat "001" = some 1 ∧ normalize_ts_number "001" = some "01" := by
  constructor
  · decide
  · have h := (claim_c2_normalize_ranges "001" 1 (by decide)).1 ⟨Nat.le_refl 1, by omega⟩
    rw [h]
    decide

/-- Claim C7: the suffix mapper is total: `deny ↦ LR`, `bypass ↦ NR`,
`market ↦ EX`, `date ↦ EX`, and every other token passes through
unchanged rather than raising an error. -/
theorem claim_c7_suffix_map_total (t : String) :
    get_mapped_suffix "deny" = "LR" ∧
    get_mapped_suffix "bypass" = "NR" ∧
    get_mapped_suffix "market" = "EX" ∧
    get_mapped_suffix "date" = "EX" ∧
    (t ≠ "deny" → t ≠ "bypass" → t ≠ "market" → t ≠ "date" →
      get_mapped_suffix t = t) := by
  refine ⟨rfl, rfl, rfl, rfl, ?_⟩
  intro h1 h2 h3 h4
  have e1 : ("deny" == t) = false := by simp [Ne.symm h1]
  have e2 : ("bypass" == t) = false := by simp [Ne.symm h2]
  have e3 : ("market" == t) = false := by simp [Ne.symm h3]
  have e4 : ("date" == t) = false := by simp [Ne.symm h4]
  simp [get_mapped_suffix, suffix_mapping, List.findSome?_cons, List.find?, e1, e2, e3, e4]

/-- Witness for C7: an unknown suffix token passes through unchanged. -/
theorem claim_c7_witness :
    get_mapped_suffix "unknown_token" = "unknown_token" :=
  (claim_c7_suffix_map_total "unknown_token").2.2.2.2
    (by decide) (by decide) (by decide) (by decide)

/-- Counterexample to claim C1: for the accepted 4-segment file
`TC#01_12345#xyz#deny.json` processed against the target model
(`rvn001`, `00W5`), the embedded edit code `xyz` is NOT used in the renamed
output: the produced name is `TC#01_12345#rvn001#00W5#LR.json`, which
carries the target model's edit code and does not contain `xyz` at all. -/
theorem claim_c1_counterexample :
    rename_files "rvn001" "00W5" ["TC#01_12345#xyz#deny.json"]
      = ["TC#01_12345#rvn001#00W5#LR.json"] ∧
    containsSub "xyz".data "TC#01_12345#rvn001#00W5#LR.json".data = false := by
  constructor
  · decide
  · decide

/-- Claim C1 (amended): for every 4-segment asset filename accepted by the
renamer, the embedded edit code (`parts[2]`) is not validated against the
target model, but neither is it used as-is: the renamed output is built from
the caller-supplied target `edit_id` and `code`, and is independent of the
embedded edit code (two inputs differing only there rename identically). -/
theorem claim_c1_four_segment_replaced (edit_id code : String)
    (f f2 : String) (tc tcid fe fe2 sfx : List Char)
    (h : splitHash f.data = [tc, tcid, fe, sfx])
    (h2 : splitHash f2.data = [tc, tcid, fe2, sfx]) :
    processFile edit_id code f
      = .renamed (new_file_name tc tcid edit_id.data code.data
          (get_mapped_suffix (String.mk (strip_json sfx))).data) ∧
    processFile edit_id code f = processFile edit_id code f2 := by
  constructor
  · unfold processFile
    rw [h]
  · unfold processFile
    rw [h, h2]

/-- Witness for the amended C1: two concrete 4-segment files that differ only
in their embedded edit code produce the same renamed output, which carries
the target model's codes. -/
theorem claim_c1_witness :
    processFile "rvn001" "00W5" "TC#01_12345#xyz#deny.json"
      = .renamed "TC#01_12345#rvn001#00W5#LR.json" ∧
    processFile "rvn001" "00W5" "TC#01_12345#xyz#deny.json"
      = processFile "rvn001" "00W5" "TC#01_12345#abc#deny.json" := by
  have h := claim_c1_four_segment_replaced "rvn001" "00W5"
    "TC#01_12345#xyz#deny.json" "TC#01_12345#abc#deny.json"
    "TC".data "01_12345".data "xyz".data "abc".data "deny.json".data
    (by decide) (by decide)
  refine ⟨?_, h.2⟩
  rw [h.1]
  decide

/-- Claim C3: splitting a filename on `#` classifies it — a segment count
other than 3, 4 or 5 yields the Unrecognized outcome and the file is skipped
while the batch continues; a 5-segment file is renamed (keeping its name)
only when its embedded edit and response codes both equal the target
model's, and on mismatch it is skipped with the parameter-mismatch outcome,
which is distinct from Unrecognized; skipped files leave the rest of the
batch's results unchanged. -/
theorem claim_c3_segment_classification (edit_id code : String) :
    (∀ f : String,
      (splitHash f.data).length ≠ 3 → (splitHash f.data).length ≠ 4 →
      (splitHash f.data).length ≠ 5 →
        processFile edit_id code f = .unrecognized) ∧
    (∀ (f : String) (tc tcid fe fc sfx : List Char),
      splitHash f.data = [tc, tcid, fe, fc, sfx] →
        ((String.mk fe = edit_id ∧ String.mk fc = code →
            processFile edit_id code f = .renamed f) ∧
         (¬ (String.mk fe = edit_id ∧ String.mk fc = code) →
            processFile edit_id code f = .mismatch))) ∧
    (FileOutcome.mismatch ≠ FileOutcome.unrecognized) ∧
    (∀ (l1 l2 : List String) (f : String),
      processFile edit_id code f = .mismatch ∨
        processFile edit_id code f = .unrecognized →
      rename_files edit_id code (l1 ++ f :: l2)
        = rename_files edit_id code (l1 ++ l2)) := by
  refine ⟨?_, ?_, by decide, ?_⟩
  · intro f h3 h4 h5
    rcases hs : splitHash f.data with _ | ⟨a, _ | ⟨b, _ | ⟨c2, _ | ⟨d, _ | ⟨e2, _ | ⟨g, rest⟩⟩⟩⟩⟩⟩ <;>
      simp [processFile, hs] at h3 h4 h5 ⊢
  · intro f tc tcid fe fc sfx hs
    have hform : processFile edit_id code f
        = if String.mk fe = edit_id ∧ String.mk fc = code then .renamed f
          else .mismatch := by
      unfold processFile
      rw [hs]
    constructor
    · rintro ⟨he, hc⟩
      rw [hform, if_pos ⟨he, hc⟩]
    · intro hne
      rw [hform, if_neg hne]
  · intro l1 l2 f hf
    unfold rename_files
    by_cases hsuf : ".json".data.isSuffixOf f.data
    · simp [List.filter_append, List.filter_cons, hsuf,
            List.filterMap_append, List.filterMap_cons]
      rcases hf with h | h <;> rw [h]
    · simp [List.filter_append, List.filter_cons, hsuf, List.filterMap_append]

/-- Witness for C3: a 2-segment name is Unrecognized; a matching 5-segment
name is kept as-is; a 5-segment name with a different embedded edit code is
a parameter mismatch; and a skipped mismatching file contributes nothing to
the batch. -/
theorem claim_c3_witness :
    processFile "rvn001" "00W5" "TC#twoparts.json" = .unrecognized ∧
    processFile "rvn001" "00W5" "TC#01_12345#rvn001#00W5#LR.json"
      = .renamed "TC#01_12345#rvn001#00W5#LR.json" ∧
    processFile "rvn001" "00W5" "TC#01_12345#rvn002#00W5#LR.json" = .mismatch ∧
    rename_files "rvn001" "00W5" ["TC#01_12345#rvn002#00W5#LR.json"]
      = rename_files "rvn001" "00W5" [] := by
  have h := claim_c3_segment_classification "rvn001" "00W5"
  refine ⟨?_, ?_, ?_, ?_⟩
  · exact h.1 "TC#twoparts.json" (by decide) (by decide) (by decide)
  · exact (h.2.1 "TC#01_12345#rvn001#00W5#LR.json"
      "TC".data "01_12345".data "rvn001".data "00W5".data "LR.json".data
      (by decide)).1 (by constructor <;> decide)
  · exact (h.2.1 "TC#01_12345#rvn002#00W5#LR.json"
      "TC".data "01_12345".data "rvn002".data "00W5".data "LR.json".data
      (by decide)).2 (by decide)
  · exact h.2.2.2 [] [] "TC#01_12345#rvn002#00W5#LR.json" (Or.inl (by decide))

/-- Claim C4: an accepted 3- or 4-segment input is renamed to
`prefix#tc_id#edit_id#code#mapped_suffix.json` with the edit and response
codes taken from the target model; an accepted (matching) 5-segment input
keeps its original name; consequently — whenever the target codes contain no
`#` — every name in the renamer's result list splits into exactly 5 segments
and ends in `.json`. -/
theorem claim_c4_canonical_output (edit_id code : String) :
    (∀ (f : String) (tc tcid sfx : List Char),
      splitHash f.data = [tc, tcid, sfx] →
        processFile edit_id code f
          = .renamed (new_file_name tc tcid edit_id.data code.data
              (get_mapped_suffix (String.mk (strip_json sfx))).data)) ∧
    (∀ (f : String) (tc tcid fe sfx : List Char),
      splitHash f.data = [tc, tcid, fe, sfx] →
        processFile edit_id code f
          = .renamed (new_file_name tc tcid edit_id.data code.data
              (get_mapped_suffix (String.mk (strip_json sfx))).data)) ∧
    (∀ (f : String) (tc tcid fe fc sfx : List Char),
      splitHash f.data = [tc, tcid, fe, fc, sfx] →
      String.mk fe = edit_id → String.mk fc = code →
        processFile edit_id code f = .renamed f) ∧
    ('#' ∉ edit_id.data → '#' ∉ code.data →
      ∀ (listing : List String) (nf : String),
        nf ∈ rename_files edit_id code listing →
        (splitHash nf.data).length = 5 ∧
          ".json".data.isSuffixOf nf.data = true) := by
  refine ⟨?_, ?_, ?_, ?_⟩
  · intro f tc tcid sfx hs
    unfold processFile
    rw [hs]
  · intro f tc tcid fe sfx hs
    unfold processFile
    rw [hs]
  · intro f tc tcid fe fc sfx hs he hc
    have hform : processFile edit_id code f
        = if String.mk fe = edit_id ∧ String.mk fc = code then .renamed f
          else .mismatch := by
      unfold processFile
      rw [hs]
    rw [hform, if_pos ⟨he, hc⟩]
  · intro he hc listing nf hnf
    unfold rename_files at hnf
    rcases List.mem_filterMap.mp hnf with ⟨f, hfmem, hf⟩
    rcases List.mem_filter.mp hfmem with ⟨hflist, hfsuf⟩
    cases hpf : processFile edit_id code f with
    | mismatch => rw [hpf] at hf; simp at hf
    | unrecognized => rw [hpf] at hf; simp at hf
    | renamed n =>
      rw [hpf] at hf
      simp only [Option.some.injEq] at hf
      subst hf
      rcases hs : splitHash f.data with _ | ⟨a, _ | ⟨b, _ | ⟨c2, _ | ⟨d, _ | ⟨e2, _ | ⟨g, rest⟩⟩⟩⟩⟩⟩ <;>
        simp [processFile, hs] at hpf
      · -- 3-segment shape
        subst hpf
        have ha : '#' ∉ a := mem_splitHash_not_mem f.data a (hs ▸ by simp)
        have hb : '#' ∉ b := mem_splitHash_not_mem f.data b (hs ▸ by simp)
        have hm : '#' ∉ (get_mapped_suffix (String.mk (strip_json c2))).data := by
          refine no_hash_mapped_suffix c2 ?_
          exact mem_splitHash_not_mem f.data c2 (hs ▸ by simp)
        refine ⟨?_, json_suffix_new_file_name a b edit_id.data code.data _⟩
        rw [splitHash_new_file_name a b edit_id.data code.data _ ha hb he hc hm]
        rfl
      · -- 4-segment shape
        subst hpf
        have ha : '#' ∉ a := mem_splitHash_not_mem f.data a (hs ▸ by simp)
        have hb : '#' ∉ b := mem_splitHash_not_mem f.data b (hs ▸ by simp)
        have hm : '#' ∉ (get_mapped_suffix (String.mk (strip_json d))).data := by
          refine no_hash_mapped_suffix d ?_
          exact mem_splitHash_not_mem f.data d (hs ▸ by simp)
        refine ⟨?_, json_suffix_new_file_name a b edit_id.data code.data _⟩
        rw [splitHash_new_file_name a b edit_id.data code.data _ ha hb he hc hm]
        rfl
      · -- 5-segment shape: original kept
        split at hpf
        · simp only [FileOutcome.renamed.injEq] at hpf
          subst hpf
          rw [hs]
          exact ⟨rfl, hfsuf⟩
        · exact absurd hpf (by simp)

/-- Witness for C4: a concrete 3-segment source file yields a result whose
name splits into 5 segments and ends in `.json`. -/
theorem claim_c4_witness :
    (splitHash "TC#01_12345#rvn001#00W5#LR.json".data).length = 5 ∧
    ".json".data.isSuffixOf "TC#01_12345#rvn001#00W5#LR.json".data = true :=
  (claim_c4_canonical_output "rvn001" "00W5").2.2.2 (by decide) (by decide)
    ["TC#01_12345#deny.json"] "TC#01_12345#rvn001#00W5#LR.json" (by decide)

/-- Claim C5: folder-name resolution tries the registered grammars in their
fixed priority order and returns the first successful extraction, so a name
matched by several grammars resolves to the highest-priority one; and
resolution of the same folder name is deterministic. -/
theorem claim_c5_grammar_priority (b : Bool) (name : String) :
    (∀ (i : Nat) (h : i < (grammarChain b).length) (r : FolderParams),
      (∀ (j : Nat) (hj : j < i),
        matchGrammar ((grammarChain b).get ⟨j, Nat.lt_trans hj h⟩) name = none) →
      matchGrammar ((grammarChain b).get ⟨i, h⟩) name = some r →
      resolve_folder_name b name = some r) ∧
    (∀ r1 r2 : FolderParams,
      resolve_folder_name b name = some r1 →
      resolve_folder_name b name = some r2 → r1 = r2) := by
  constructor
  · intro i h r hearly hi
    exact findSome?_of_earlier_none (fun g => matchGrammar g name)
      (grammarChain b) i h r hearly hi
  · intro r1 r2 h1 h2
    rw [h1] at h2
    exact Option.some.inj h2

/-- Witness for C5: the first (highest-priority) grammar matches the
end-to-end example folder and resolution returns its extraction. -/
theorem claim_c5_witness :
    resolve_folder_name false "TS_07_REVENUE_WGS_CSBD_rvn011_00W11_sur"
      = some ⟨"07", "rvn011", "00W11"⟩ :=
  (claim_c5_grammar_priority false "TS_07_REVENUE_WGS_CSBD_rvn011_00W11_sur").1
    0 (by decide) ⟨"07", "rvn011", "00W11"⟩
    (fun j hj => absurd hj (Nat.not_lt_zero j))
    (by decide)

/-- Claim C6: the destination folder name follows the first applicable rule
of the ordered chain — `_payloads_sur` occurrences become `_payloads_dis`;
else `_ayloads_sur` occurrences become `_payloads_dis`; else `_sur`
occurrences become `_dis`; else the name is unchanged. -/
theorem claim_c6_dest_folder_chain (name : String) :
    (OccursIn "_payloads_sur" name →
      dest_folder_name name
        = String.mk (replaceAll "_payloads_sur".data "_payloads_dis".data name.data)) ∧
    (¬ OccursIn "_payloads_sur" name → OccursIn "_ayloads_sur" name →
      dest_folder_name name
        = String.mk (replaceAll "_ayloads_sur".data "_payloads_dis".data name.data)) ∧
    (¬ OccursIn "_payloads_sur" name → ¬ OccursIn "_ayloads_sur" name →
      OccursIn "_sur" name →
      dest_folder_name name
        = String.mk (replaceAll "_sur".data "_dis".data name.data)) ∧
    (¬ OccursIn "_payloads_sur" name → ¬ OccursIn "_ayloads_sur" name →
      ¬ OccursIn "_sur" name →
      dest_folder_name name = name) := by
  have key : ∀ pat : String, containsSub pat.data name.data = true ↔ OccursIn pat name := by
    intro pat
    rw [containsSub_iff]
    exact Iff.rfl
  refine ⟨?_, ?_, ?_, ?_⟩
  · intro h1
    unfold dest_folder_name
    rw [if_pos ((key _).mpr h1)]
  · intro h1 h2
    unfold dest_folder_name
    rw [if_neg (fun hcc => h1 ((key _).mp hcc)), if_pos ((key _).mpr h2)]
  · intro h1 h2 h3
    unfold dest_folder_name
    rw [if_neg (fun hcc => h1 ((key _).mp hcc)),
        if_neg (fun hcc => h2 ((key _).mp hcc)), if_pos ((key _).mpr h3)]
  · intro h1 h2 h3
    unfold dest_folder_name
    rw [if_neg (fun hcc => h1 ((key _).mp hcc)),
        if_neg (fun hcc => h2 ((key _).mp hcc)),
        if_neg (fun hcc => h3 ((key _).mp hcc))]

/-- Witness for C6: a folder name containing `_payloads_sur` is rewritten by
the first rule of the chain. -/
theorem claim_c6_witness :
    dest_folder_name "TS_01_REVENUE_WGS_CSBD_a_b_payloads_sur"
      = "TS_01_REVENUE_WGS_CSBD_a_b_payloads_dis" := by
  have h := (claim_c6_dest_folder_chain "TS_01_REVENUE_WGS_CSBD_a_b_payloads_sur").1
    ((containsSub_iff "_payloads_sur".data
        "TS_01_REVENUE_WGS_CSBD_a_b_payloads_sur".data).mp (by decide))
  rw [h]
  decide

theorem filterMap_filter_middle (g : String → Option ModelConfig)
    (p : String → Bool) (f : String) (hg : g f = none) (l1 l2 : List String) :
    ((l1 ++ f :: l2).filter p).filterMap g = ((l1 ++ l2).filter p).filterMap g := by
  by_cases hp : p f = true
  · simp [List.filter_append, List.filter_cons, hp,
          List.filterMap_append, List.filterMap_cons, hg]
  · simp [List.filter_append, List.filter_cons, hp, List.filterMap_append]

theorem flatten_filterMap_middle (g : String → Option ModelConfig) (f : String)
    (hg : g f = none) :
    ∀ (ps : List String) (l1 l2 : List String),
      (((ps.map (fun q => (l1 ++ f :: l2).filter
          (fun s => globMatch q.data s.data))).flatten).filterMap g)
        = (((ps.map (fun q => (l1 ++ l2).filter
            (fun s => globMatch q.data s.data))).flatten).filterMap g) := by
  intro ps
  induction ps with
  | nil => intro l1 l2; rfl
  | cons q ps ih =>
    intro l1 l2
    simp only [List.map_cons, List.flatten_cons, List.filterMap_append]
    rw [filterMap_filter_middle g _ f hg l1 l2, ih l1 l2]

/-- Claim C8: a grammar-matched candidate folder enters the discovery result
only when it contains a `regression` subdirectory; a folder without one is
excluded while discovery of the remaining folders proceeds unchanged (no
error aborts the scan). -/
theorem claim_c8_regression_required (baseDir : String) (hasReg : String → Bool) :
    (∀ (listing : List String) (m : ModelConfig),
      m ∈ discover_ts_folders baseDir hasReg listing →
        hasReg m.folder_name = true) ∧
    (∀ (l1 l2 : List String) (f : String), hasReg f = false →
      discover_ts_folders baseDir hasReg (l1 ++ f :: l2)
        = discover_ts_folders baseDir hasReg (l1 ++ l2)) := by
  constructor
  · intro listing m hm
    unfold discover_ts_folders at hm
    rcases List.mem_filterMap.mp hm with ⟨folder, hfol, hpf⟩
    unfold processFolder at hpf
    cases hres : resolve_folder_name (is_gbdf_dir baseDir) folder with
    | none => rw [hres] at hpf; simp at hpf
    | some p =>
      simp only [hres] at hpf
      by_cases hr : hasReg folder = true
      · rw [if_pos hr] at hpf
        simp only [Option.some.injEq] at hpf
        subst hpf
        exact hr
      · rw [if_neg hr] at hpf
        simp at hpf
  · intro l1 l2 f hf
    have hnone : ∀ b : Bool, processFolder b hasReg f = none := by
      intro b
      unfold processFolder
      cases hres : resolve_folder_name b f with
      | none => rfl
      | some p =>
        simp only [hres]
        rw [if_neg (by simp [hf])]
    unfold discover_ts_folders ts_folder_candidates
    cases hg : is_gbdf_dir baseDir
    · simp only [Bool.false_eq_true, if_false]
      exact flatten_filterMap_middle _ f (hnone false) wgs_glob_patterns l1 l2
    · simp only [if_true]
      exact filterMap_filter_middle _ _ f (hnone true) l1 l2

/-- Witness for C8: a folder matching the first grammar but lacking a
`regression` subdirectory is excluded, leaving an empty discovery result. -/
theorem claim_c8_witness :
    discover_ts_folders "source_folder/WGS_CSBD" (fun _ => false)
      ["TS_07_REVENUE_WGS_CSBD_rvn011_00W11_sur"] = [] := by
  have h := (claim_c8_regression_required "source_folder/WGS_CSBD"
    (fun _ => false)).2 [] [] "TS_07_REVENUE_WGS_CSBD_rvn011_00W11_sur" rfl
  exact h.trans (by decide)

theorem lastDotIndex_append (xs ys : List Char) :
    lastDotIndex (xs ++ ys)
      = match lastDotIndex ys with
        | some i => some (xs.length + i)
        | none => lastDotIndex xs := by
  induction xs with
  | nil => cases h : lastDotIndex ys <;> simp [lastDotIndex, h]
  | cons c xs ih =>
    have hstep : lastDotIndex ((c :: xs) ++ ys)
        = match lastDotIndex (xs ++ ys) with
          | some i => some (i + 1)
          | none => if c = '.' then some 0 else none := rfl
    rw [hstep, ih]
    cases h : lastDotIndex ys with
    | some i =>
      show some (xs.length + i + 1) = some ((c :: xs).length + i)
      simp only [List.length_cons, Option.some.injEq]
      omega
    | none => rfl

theorem path_stem_json (pre : List Char) (hp : pre ≠ []) :
    path_stem (String.mk (pre ++ ".json".data)) = String.mk pre := by
  have h0 : lastDotIndex (pre ++ ".json".data) = some (pre.length + 0) := by
    rw [lastDotIndex_append]
    rfl
  have hform : path_stem (String.mk (pre ++ ".json".data))
      = if 0 < pre.length + 0 ∧ pre.length + 0 < (pre ++ ".json".data).length - 1
        then String.mk ((pre ++ ".json".data).take (pre.length + 0))
        else String.mk (pre ++ ".json".data) := by
    unfold path_stem
    rw [show (String.mk (pre ++ ".json".data)).data = pre ++ ".json".data from rfl, h0]
  have hcond : 0 < pre.length + 0 ∧
      pre.length + 0 < (pre ++ ".json".data).length - 1 := by
    constructor
    · have := List.length_pos.mpr hp
      omega
    · rw [List.length_append]
      rw [show (".json".data).length = 5 from rfl]
      omega
  rw [hform, if_pos hcond]
  rw [show pre.length + 0 = pre.length from rfl]
  rw [List.take_left pre ".json".data]

theorem method_for_post (s : String) : method_for s = "POST" := by
  unfold method_for
  cases h : method_map.find? (fun kv => kv.1 == s) with
  | none => simp only [h]
  | some kv =>
    simp only [h]
    have hm := List.mem_of_find?_eq_some h
    unfold method_map at hm
    simp only [List.mem_cons, List.not_mem_nil, or_false] at hm
    rcases hm with rfl | rfl | rfl <;> rfl

/-- Claim C9: every request entry of a generated extended-shape collection
has name = source filename minus its `.json` extension, HTTP method `POST`
(for any suffix), exactly the fixed header set, mode-`raw` body equal to the
serialized (pretty-printed) content of the source file, and the collection
carries exactly the single templated `baseUrl` variable. -/
theorem claim_c9_generated_requests {α : Type} (dumps : α → String)
    (cname : String) (files : List (String × α)) (c : PostmanCollection)
    (hgen : generate_postman_collection dumps cname files = some c) :
    c.varList = [⟨"baseUrl", "http://localhost:3000", "string"⟩] ∧
    ∀ it ∈ c.item,
      it.method = "POST" ∧
      it.header = fixed_headers ∧
      it.body.mode = "raw" ∧
      ∃ (fn : String) (content : α),
        (fn, content) ∈ files ∧
        it.body.raw = dumps content ∧
        it.name ++ ".json" = fn := by
  unfold generate_postman_collection at hgen
  split at hgen
  · exact absurd hgen (by simp)
  · split at hgen
    · exact absurd hgen (by simp)
    · simp only [Option.some.injEq] at hgen
      subst hgen
      refine ⟨rfl, ?_⟩
      intro it hit
      unfold collection_items json_file_list at hit
      rcases List.mem_filterMap.mp hit with ⟨fc, hfc, hmk⟩
      rcases List.mem_filter.mp hfc with ⟨hmem, hsuf⟩
      rcases Option.map_eq_some'.mp hmk with ⟨info, hinfo, hbuild⟩
      subst hbuild
      refine ⟨method_for_post info.sfx, rfl, rfl, fc.1, fc.2, by simpa using hmem, rfl, ?_⟩
      rcases List.isSuffixOf_iff_suffix.mp hsuf with ⟨pre, hpre⟩
      have hprene : pre ≠ [] := by
        intro hnil
        subst hnil
        have hfc1 : fc.1 = ".json" := String.ext (by simpa using hpre.symm)
        rw [hfc1, show parse_filename ".json" = none from by decide] at hinfo
        exact Option.noConfusion hinfo
      have hfc1 : fc.1 = String.mk (pre ++ ".json".data) :=
        String.ext (by rw [hpre])
      rw [show (make_postman_item dumps fc.1 fc.2 info).name = path_stem fc.1 from rfl,
          hfc1, path_stem_json pre hprene]
      exact String.ext (by simp [String.data_append])

/-- Witness for C9: the collection generated from one canonical 5-segment
source file carries exactly the single templated `baseUrl` variable. -/
theorem claim_c9_witness :
    (PostmanCollection.mk "TS_07 API Collection"
        "API collection for TS_07 test cases"
        "https://schema.getpostman.com/json/collection/v2.1.0/collection.json"
        [PostmanItem.mk "TC#a#b#c#d" "POST" fixed_headers
          "\x7b\x7bbaseUrl\x7d\x7d/api/validate/\x7b\x7btc_id\x7d\x7d"
          (PostmanBody.mk "raw" "BODY")]
        [PostmanVariable.mk "baseUrl" "http://localhost:3000" "string"]).varList
      = [PostmanVariable.mk "baseUrl" "http://localhost:3000" "string"] :=
  (claim_c9_generated_requests (fun s : String => s) "TS_07"
    [("TC#a#b#c#d.json", "BODY")] _ (by decide)).1

/-- Claim C10 (evaluation of the code at the failing input): a physical
folder whose name matches both the `*_payloads_sur` and the `*_sur` glob
patterns is appended to the candidate list once per pattern and, with its
`regression` subdirectory present, discovery emits TWO identical model
records for the single folder — not one. -/
theorem claim_c10_duplicate_records :
    discover_ts_folders "source_folder/WGS_CSBD" (fun _ => true)
      ["TS_07_REVENUE_WGS_CSBD_rvn011_payloads_sur"]
      = [ { ts_number := "07", ts_number_raw := "07", edit_id := "rvn011",
            code := "payloads",
            folder_name := "TS_07_REVENUE_WGS_CSBD_rvn011_payloads_sur",
            dest_folder := "TS_07_REVENUE_WGS_CSBD_rvn011_payloads_dis" },
          { ts_number := "07", ts_number_raw := "07", edit_id := "rvn011",
            code := "payloads",
            folder_name := "TS_07_REVENUE_WGS_CSBD_rvn011_payloads_sur",
            dest_folder := "TS_07_REVENUE_WGS_CSBD_rvn011_payloads_dis" } ] := by
  decide

end RenamingPostman
